import Mathlib

/-!
Verification of the pagination-state derivation in
`fhirweb-spa/src/components/common/Pagination.tsx`.

The component body (lines 36-116 of the source) is a pure derivation from
the FHIR bundle prop to display bounds, page numbers and navigation flags,
plus the page-jump input handling.  We embed that derivation shallowly:

* `Bundle` keeps only the fields the component reads (`total`,
  `entry` — only its length matters, so entries are `Unit` — and `link`).
* JavaScript division can produce `Infinity` and `NaN` when the page size
  extracted from the self link is `0`, so `currentPage` and `totalPages`
  live in `JNum` (a finite natural, `Infinity`, or `NaN`) with the
  JavaScript comparison behaviour (`NaN` compares false to everything).
* The regex matches `[?&]_offset=(\d+)` / `[?&]_count=(\d+)` are embedded
  as a leftmost scan over the character list (`scanParam`).
* `parseInt(s, 10)` is embedded as `parseIntJS` (skip leading whitespace,
  optional sign, maximal run of decimal digits, `NaN` as `none`).
-/

namespace FhirPagination

/-- The result of a JavaScript arithmetic expression that is either a
finite natural number, `Infinity`, or `NaN`.  All numbers appearing in the
derivation are non-negative, so the finite case carries a `Nat`. -/
inductive JNum where
  | fin (n : Nat)
  | inf
  | nan
deriving DecidableEq

/-- JavaScript comparison `j > m` for a number `j : JNum` against a finite
bound: `NaN` compares false, `Infinity` compares true. -/
def JNum.gtN : JNum → Nat → Bool
  | .fin n, m => decide (m < n)
  | .inf, _ => true
  | .nan, _ => false

/-- JavaScript comparison `a < b` on two `JNum`s; any comparison with
`NaN` is false, and `Infinity < Infinity` is false. -/
def JNum.ltJ : JNum → JNum → Bool
  | .fin a, .fin b => decide (a < b)
  | .fin _, .inf => true
  | .fin _, .nan => false
  | .inf, _ => false
  | .nan, _ => false

/-- JavaScript comparison `j >= 1`: true for `Infinity`, false for `NaN`. -/
def JNum.geOne : JNum → Bool
  | .fin n => decide (1 ≤ n)
  | .inf => true
  | .nan => false

/-- One entry of `bundle.link`: a relation name and an optional URL
(the code guards with `selfLink?.url`, so the URL may be missing). -/
structure Link where
  relation : String
  url : Option String
deriving DecidableEq

/-- The slice of a FHIR `Bundle` that the component reads: `total`
(optional non-negative integer), `entry` (only the length is used) and
`link` (optional list of navigation links). -/
structure Bundle where
  total : Option Nat
  entry : Option (List Unit)
  link : Option (List Link)
deriving DecidableEq

/-- Value of a non-empty list of decimal digit characters, most
significant first — the value `parseInt` assigns to a `(\d+)` capture. -/
def digitsToNat (ds : List Char) : Nat :=
  ds.foldl (fun a c => a * 10 + (c.toNat - 48)) 0

/-- Consume the characters of `key` from the front of a string; `none`
when the string does not start with `key`. -/
def eatChars : List Char → List Char → Option (List Char)
  | [], s => some s
  | _ :: _, [] => none
  | k :: ks, c :: cs => if c = k then eatChars ks cs else none

/-- Attempt the regex `[?&]<key>(\d+)` anchored at the current position:
the head must be `?` or `&`, followed by `key`, followed by at least one
digit; the value of the maximal digit run is returned. -/
def numAfterKey (key : List Char) : List Char → Option Nat
  | [] => none
  | c :: rest =>
    if c = '?' || c = '&' then
      match eatChars key rest with
      | some t =>
        let ds := t.takeWhile Char.isDigit
        if ds.isEmpty then none else some (digitsToNat ds)
      | none => none
    else none

/-- Leftmost match of `[?&]<key>(\d+)`, as `String.prototype.match` finds
it: try each start position from the left. -/
def scanParam (key : List Char) : List Char → Option Nat
  | [] => none
  | c :: rest =>
    match numAfterKey key (c :: rest) with
    | some n => some n
    | none => scanParam key rest

/-- Embeds `url.match(/[?&]_offset=(\d+)/)` followed by
`parseInt(match[1], 10)`: the extracted `_offset` value, if any. -/
def offsetOf (url : String) : Option Nat :=
  scanParam "_offset=".toList url.toList

/-- Embeds `url.match(/[?&]_count=(\d+)/)` followed by
`parseInt(match[1], 10)`: the extracted `_count` value, if any. -/
def countOf (url : String) : Option Nat :=
  scanParam "_count=".toList url.toList

/-- Embeds `parseInt(s, 10)`: skip leading whitespace, read an optional
sign and then a maximal run of decimal digits; `none` models `NaN`.
The desktop Go button calls `parseInt` without a radix, which differs
from radix 10 only on strings whose digit part starts `0x`/`0X`; those
parse to `0` here, which the theorems below never treat as a valid page. -/
def parseIntJS (s : String) : Option Int :=
  match s.toList.dropWhile Char.isWhitespace with
  | '-' :: t =>
    let ds := t.takeWhile Char.isDigit
    if ds.isEmpty then none else some (-(digitsToNat ds : Int))
  | '+' :: t =>
    let ds := t.takeWhile Char.isDigit
    if ds.isEmpty then none else some ((digitsToNat ds : Int))
  | t =>
    let ds := t.takeWhile Char.isDigit
    if ds.isEmpty then none else some ((digitsToNat ds : Int))

/-- Embeds `bundle.entry?.length || 0`. -/
def entryCount (b : Bundle) : Nat :=
  match b.entry with
  | none => 0
  | some l => l.length

/-- Embeds `bundle.link?.some((link) => link.relation === r)`, coerced to
boolean by its use in `||` (an absent link list reads as false). -/
def hasRel (b : Bundle) (r : String) : Bool :=
  match b.link with
  | none => false
  | some ls => ls.any (fun l => l.relation == r)

/-- Embeds `bundle.link?.find((link) => link.relation === 'self')`. -/
def selfLink (b : Bundle) : Option Link :=
  match b.link with
  | none => none
  | some ls => ls.find? (fun l => l.relation == "self")

/-- The truthiness test `selfLink?.url` of the source: yields the self
link URL exactly when a self link exists, carries a URL, and that URL is
not the (falsy) empty string. -/
def selfUrl (b : Bundle) : Option String :=
  match selfLink b with
  | none => none
  | some l =>
    match l.url with
    | none => none
    | some u => if u = "" then none else some u

/-- JavaScript truthiness of the optional `total`: `0` and `undefined`
are both falsy, so `if (total)` skips the `totalPages` computation for an
absent total and for `total = 0` alike. -/
def totalTruthy : Option Nat → Bool
  | none => false
  | some n => n != 0

/-- Embeds `Math.floor(currentOffset / pageSize) + 1` with JavaScript
division: dividing by `0` gives `NaN` (for `0/0`) or `Infinity`. -/
def jFloorDivSucc (o ps : Nat) : JNum :=
  if ps = 0 then (if o = 0 then .nan else .inf) else .fin (o / ps + 1)

/-- Embeds `Math.ceil(t / ps)` on naturals with JavaScript division:
`ps = 0` gives `NaN` (for `0/0`) or `Infinity`. -/
def jCeilDiv (t ps : Nat) : JNum :=
  if ps = 0 then (if t = 0 then .nan else .inf) else .fin ((t + ps - 1) / ps)

/-- Modelled from the spec: the spec's `ceil(T / C)` for a positive
divisor `C`, used to compare the code's `totalPages` against the
formula the spec states. -/
def specCeilDiv (t c : Nat) : Nat := (t + c - 1) / c

/-- The numeric part of the derivation (source lines 41-76): display
bounds, current page, page size, total pages and current offset, before
the navigation flags are computed.  Field names follow the source's local
variables; the spec's `displayStart`/`displayEnd` are
`currentStart`/`currentEnd` (the "Showing X to Y" values). -/
structure CoreState where
  currentStart : Nat
  currentEnd : Nat
  currentPage : JNum
  pageSize : Nat
  totalPages : JNum
  currentOffset : Nat
deriving DecidableEq

/-- Embeds the branch on `selfLink?.url` (source lines 49-76): extract
`_offset`/`_count` from the self link URL when it is truthy, otherwise
fall back to estimating the page size from the entry count. -/
def coreOf (u : Option String) (total : Option Nat) (ec : Nat) : CoreState :=
  match u with
  | some url =>
    let off := offsetOf url
    let cnt := countOf url
    let ps := match cnt with | some c => c | none => 20
    let cOff := match off with | some o => o | none => 0
    let cStart := match off with | some o => o + 1 | none => 1
    let cEnd := match off with | some o => o + ec | none => ec
    let cPage := match off with | some o => jFloorDivSucc o ps | none => JNum.fin 1
    let tp := if totalTruthy total then jCeilDiv (total.getD 0) ps else JNum.fin 1
    ⟨cStart, cEnd, cPage, ps, tp, cOff⟩
  | none =>
    if totalTruthy total && decide (0 < ec) then
      ⟨1, ec, JNum.fin 1, ec, jCeilDiv (total.getD 0) ec, 0⟩
    else
      ⟨1, ec, JNum.fin 1, 20, JNum.fin 1, 0⟩

/-- The derived pagination view: the numeric `CoreState` plus the
enable/disable flags of the four navigation actions (source lines 79-97). -/
structure PaginationView extends CoreState where
  hasNext : Bool
  hasPrevious : Bool
  hasFirst : Bool
  hasLast : Bool
deriving DecidableEq

/-- The full pagination-state derivation of the `Pagination` component:
a pure function of the bundle.  The component body has no exception path
(this embedding is a total function); malformed or missing parameters in
the self link simply leave the corresponding defaults in place. -/
def derive (b : Bundle) : PaginationView :=
  let c := coreOf (selfUrl b) b.total (entryCount b)
  { c with
    hasNext := hasRel b "next" ||
      (match b.total with | some t => decide (c.currentEnd < t) | none => false)
    hasPrevious := hasRel b "previous" || decide (0 < c.currentOffset)
    hasFirst := hasRel b "first" || c.currentPage.gtN 1
    hasLast := hasRel b "last" || (c.totalPages.gtN 1 && c.currentPage.ltJ c.totalPages) }

/-- Embeds `handleGoToPage` (source lines 99-110): parse the free-text
input with `parseInt(·, 10)` and invoke `onGoToPage` exactly when the
result is a number between `1` and `totalPages`; the returned value is
the page passed to `onGoToPage`, `none` when no navigation happens. -/
def handleGoToPage (pageInput : String) (totalPages : Int) : Option Int :=
  match parseIntJS pageInput with
  | none => none
  | some n => if 1 ≤ n ∧ n ≤ totalPages then some n else none

/-- Embeds the desktop Go button's `disabled` expression (source lines
180-186).  A `parseInt` result of `NaN` makes every numeric comparison
false, so a non-empty non-numeric input does not disable the button. -/
def goButtonDisabled (isLoading : Bool) (pageInput : String)
    (totalPages currentPage : Int) : Bool :=
  isLoading || pageInput == "" ||
    (match parseIntJS pageInput with | none => false | some n => decide (n < 1)) ||
    (match parseIntJS pageInput with | none => false | some n => decide (totalPages < n)) ||
    (match parseIntJS pageInput with | none => false | some n => n == currentPage)

/-- Scenario 1 of the spec: total 97, twenty entries, self link with
offset 20 and count 20. -/
def bundleScenario1 : Bundle :=
  { total := some 97
    entry := some (List.replicate 20 ())
    link := some [{ relation := "self", url := some "http://h/obs?_offset=20&_count=20" }] }

/-- Scenario 2 of the spec: total 5, five entries, no links at all. -/
def bundleScenario2 : Bundle :=
  { total := some 5
    entry := some (List.replicate 5 ())
    link := some [] }

/-- Bundle with `total = 0` (falsy) together with a self link carrying
offset and count parameters. -/
def bundleTotalZeroSelf : Bundle :=
  { total := some 0
    entry := some []
    link := some [{ relation := "self", url := some "http://h/obs?_offset=20&_count=20" }] }

/-- Bundle with no entries but a self link whose offset is positive. -/
def bundleEmptyOffset : Bundle :=
  { total := some 97
    entry := some []
    link := some [{ relation := "self", url := some "http://h/obs?_offset=20&_count=20" }] }

/-- Bundle with `total = 0` (falsy), five entries and no links. -/
def bundleTotalZeroNoLink : Bundle :=
  { total := some 0
    entry := some (List.replicate 5 ())
    link := some [] }

/-- Bundle whose self link URL carries no query parameters, with a
present total. -/
def bundleSelfNoParams : Bundle :=
  { total := some 97
    entry := some (List.replicate 20 ())
    link := some [{ relation := "self", url := some "http://h/obs" }] }

/-- Bundle whose self link URL carries `_count=0`. -/
def bundleCountZero : Bundle :=
  { total := some 7
    entry := some (List.replicate 3 ())
    link := some [{ relation := "self", url := some "http://h/obs?_offset=0&_count=0" }] }

/-- Bundle with a "next" link whose display range already covers the
total, showing the link alone enables the next action. -/
def bundleNextLink : Bundle :=
  { total := some 1
    entry := some (List.replicate 20 ())
    link := some [{ relation := "next", url := some "http://h/obs?page=2" }] }

theorem derive_currentStart (b : Bundle) :
    (derive b).currentStart = (coreOf (selfUrl b) b.total (entryCount b)).currentStart := rfl

theorem derive_currentEnd (b : Bundle) :
    (derive b).currentEnd = (coreOf (selfUrl b) b.total (entryCount b)).currentEnd := rfl

theorem derive_currentPage (b : Bundle) :
    (derive b).currentPage = (coreOf (selfUrl b) b.total (entryCount b)).currentPage := rfl

theorem derive_pageSize (b : Bundle) :
    (derive b).pageSize = (coreOf (selfUrl b) b.total (entryCount b)).pageSize := rfl

theorem derive_totalPages (b : Bundle) :
    (derive b).totalPages = (coreOf (selfUrl b) b.total (entryCount b)).totalPages := rfl

theorem derive_currentOffset (b : Bundle) :
    (derive b).currentOffset = (coreOf (selfUrl b) b.total (entryCount b)).currentOffset := rfl

theorem geOne_jCeilDiv (t ps : Nat) (ht : t ≠ 0) : (jCeilDiv t ps).geOne = true := by
  unfold jCeilDiv
  by_cases hp : ps = 0
  · simp [hp, ht, JNum.geOne]
  · simp only [hp, if_false, JNum.geOne, decide_eq_true_eq]
    rw [Nat.le_div_iff_mul_le (Nat.pos_of_ne_zero hp)]
    omega

/-- C4: for every bundle, the derived `canGoNext` flag is true exactly
when a "next" link is present or the total is present (even `0`, since
the code tests `total !== undefined` here) and `displayEnd < total`; in
particular a "next" link alone makes it true. -/
theorem canGoNext_spec (b : Bundle) :
    ((derive b).hasNext = true ↔
      hasRel b "next" = true ∨ ∃ t, b.total = some t ∧ (derive b).currentEnd < t) ∧
    (hasRel b "next" = true → (derive b).hasNext = true) := by
  constructor
  · show (hasRel b "next" ||
        (match b.total with
          | some t => decide ((coreOf (selfUrl b) b.total (entryCount b)).currentEnd < t)
          | none => false)) = true ↔ _
    rw [derive_currentEnd]
    cases ht : b.total with
    | none => simp
    | some t => simp
  · intro h
    show (hasRel b "next" || _) = true
    rw [h]
    simp

theorem canGoNext_spec_check :
    (derive bundleNextLink).hasNext = true ∧
    (derive bundleNextLink).currentEnd = 20 ∧ bundleNextLink.total = some 1 :=
  ⟨(canGoNext_spec bundleNextLink).2 (by decide), by decide, by decide⟩

/-- C5: the page-jump handler invokes the navigation callback exactly
when `parseInt(input, 10)` yields an integer between `1` and
`totalPages`; it rejects "0", "-1", non-numeric strings and integers
above `totalPages`, and on rejection no navigation value is produced. -/
theorem validateJumpTarget_spec (input : String) (tp : Int) (htp : 1 ≤ tp) :
    (∀ n : Int, handleGoToPage input tp = some n ↔
        parseIntJS input = some n ∧ 1 ≤ n ∧ n ≤ tp) ∧
    handleGoToPage "0" tp = none ∧
    handleGoToPage "-1" tp = none ∧
    (parseIntJS input = none → handleGoToPage input tp = none) ∧
    (∀ m : Int, parseIntJS input = some m → tp < m → handleGoToPage input tp = none) := by
  refine ⟨?_, ?_, ?_, ?_, ?_⟩
  · intro n
    unfold handleGoToPage
    cases hp : parseIntJS input with
    | none => simp
    | some m =>
      show (if 1 ≤ m ∧ m ≤ tp then some m else none) = some n ↔
        some m = some n ∧ 1 ≤ n ∧ n ≤ tp
      by_cases h : 1 ≤ m ∧ m ≤ tp
      · rw [if_pos h]
        simp only [Option.some.injEq]
        constructor
        · rintro rfl
          exact ⟨rfl, h.1, h.2⟩
        · rintro ⟨rfl, _, _⟩
          rfl
      · rw [if_neg h]
        constructor
        · intro hcon
          exact absurd hcon (by simp)
        · rintro ⟨heq, h1, h2⟩
          injection heq with heq2
          subst heq2
          exact absurd ⟨h1, h2⟩ h
  · unfold handleGoToPage
    rw [show parseIntJS "0" = some 0 from by decide]
    show (if (1 : Int) ≤ 0 ∧ (0 : Int) ≤ tp then some (0 : Int) else none) = none
    rw [if_neg (fun h => absurd h.1 (by decide))]
  · unfold handleGoToPage
    rw [show parseIntJS "-1" = some (-1) from by decide]
    show (if (1 : Int) ≤ -1 ∧ (-1 : Int) ≤ tp then some (-1 : Int) else none) = none
    rw [if_neg (fun h => absurd h.1 (by decide))]
  · intro h
    unfold handleGoToPage
    rw [h]
  · intro m hm hgt
    unfold handleGoToPage
    rw [hm]
    show (if 1 ≤ m ∧ m ≤ tp then some m else none) = none
    rw [if_neg (fun h => absurd h.2 (by omega))]

theorem validateJumpTarget_spec_check :
    handleGoToPage "3" 5 = some 3 ∧ handleGoToPage "0" 5 = none ∧
    handleGoToPage "-1" 5 = none ∧ handleGoToPage "abc" 5 = none ∧
    handleGoToPage "7" 5 = none := by
  have h := validateJumpTarget_spec "3" 5 (by decide)
  refine ⟨(h.1 3).mpr ⟨by decide, by decide, by decide⟩, h.2.1, h.2.2.1, ?_, ?_⟩
  · exact (validateJumpTarget_spec "abc" 5 (by decide)).2.2.2.1 (by decide)
  · exact (validateJumpTarget_spec "7" 5 (by decide)).2.2.2.2 7 (by decide) (by decide)

/-- C6: for every bundle — whatever the combination of total, entries,
links and self-link URL content — the derived `totalPages` satisfies the
JavaScript comparison `totalPages >= 1` (it is a finite natural at least
`1`, or `Infinity` when the self link supplies `_count=0` alongside a
non-zero total). -/
theorem totalPages_ge_one (b : Bundle) : ((derive b).totalPages).geOne = true := by
  rw [derive_totalPages]
  cases hu : selfUrl b with
  | some u =>
    simp only [coreOf]
    by_cases ht : totalTruthy b.total = true
    · rw [if_pos ht]
      cases htot : b.total with
      | none => rw [htot] at ht; simp [totalTruthy] at ht
      | some t =>
        rw [htot] at ht
        simp only [totalTruthy, bne_iff_ne] at ht
        simp only [htot, Option.getD_some]
        exact geOne_jCeilDiv t _ ht
    · rw [if_neg ht]
      rfl
  | none =>
    simp only [coreOf]
    by_cases hcond : (totalTruthy b.total && decide (0 < entryCount b)) = true
    · rw [if_pos hcond]
      simp only [Bool.and_eq_true, decide_eq_true_eq] at hcond
      cases htot : b.total with
      | none => rw [htot] at hcond; simp [totalTruthy] at hcond
      | some t =>
        rw [htot] at hcond
        simp only [totalTruthy, bne_iff_ne] at hcond
        simp only [htot, Option.getD_some]
        exact geOne_jCeilDiv t _ hcond.1
    · rw [if_neg hcond]
      rfl

/-- C10: when `totalPages > 1`, an in-range input equal to the current
page leaves the desktop Go button disabled, while the Enter-key path
through `handleGoToPage` accepts the same input and invokes
`onGoToPage(currentPage)` — the two activation paths disagree. -/
theorem goButton_vs_enter (tp cp : Int) (inp : String)
    (htp : 1 < tp) (hp : parseIntJS inp = some cp) (h1 : 1 ≤ cp) (h2 : cp ≤ tp) :
    goButtonDisabled false inp tp cp = true ∧ handleGoToPage inp tp = some cp := by
  constructor
  · unfold goButtonDisabled
    rw [hp]
    simp
  · unfold handleGoToPage
    rw [hp]
    show (if 1 ≤ cp ∧ cp ≤ tp then some cp else none) = some cp
    rw [if_pos ⟨h1, h2⟩]

theorem goButton_vs_enter_check :
    goButtonDisabled false "2" 3 2 = true ∧ handleGoToPage "2" 3 = some 2 :=
  goButton_vs_enter 3 2 "2" (by decide) (by decide) (by decide) (by decide)

/-- Scenario 3 of the spec: no total, no entries, self link with offset
`0` and count `20`. -/
def bundleScenario3 : Bundle :=
  { total := none
    entry := some []
    link := some [{ relation := "self", url := some "http://h/obs?_offset=0&_count=20" }] }

/-- Bundle with a parameterless self link URL and no total. -/
def bundleSelfPlain : Bundle :=
  { total := none
    entry := some (List.replicate 3 ())
    link := some [{ relation := "self", url := some "http://h/obs" }] }

/-- C1 (counterexample): a bundle whose total is present with value `0`
and whose self link carries `_offset=20&_count=20` gets `totalPages = 1`
from the code (the truthiness test `if (total)` treats `0` like an
absent total), while the claim's formula `ceil(T/C)` demands `0`. -/
theorem totalZero_totalPages_cex :
    bundleTotalZeroSelf.total = some 0 ∧
    offsetOf "http://h/obs?_offset=20&_count=20" = some 20 ∧
    countOf "http://h/obs?_offset=20&_count=20" = some 20 ∧
    (derive bundleTotalZeroSelf).totalPages = JNum.fin 1 ∧
    JNum.fin 1 ≠ JNum.fin (specCeilDiv 0 20) := by decide

/-- C1 (amended): for every bundle whose self link URL yields
`_offset = O` and `_count = C` with `C ≥ 1`, and whose total is present
with a non-zero value `T`, the derivation returns
`currentPage = floor(O/C) + 1` and `totalPages = ceil(T/C)`. -/
theorem selfLink_page_formula (b : Bundle) (u : String) (o c t : Nat)
    (hu : selfUrl b = some u) (ho : offsetOf u = some o) (hc : countOf u = some c)
    (ht : b.total = some t) (hcpos : 0 < c) (htpos : 0 < t) :
    (derive b).currentPage = JNum.fin (o / c + 1) ∧
    (derive b).totalPages = JNum.fin (specCeilDiv t c) := by
  have hc0 : c ≠ 0 := by omega
  have ht0 : t ≠ 0 := by omega
  rw [derive_currentPage, derive_totalPages, hu]
  simp only [coreOf, ho, hc, ht]
  constructor
  · simp [jFloorDivSucc, hc0]
  · simp [totalTruthy, ht0, jCeilDiv, hc0, specCeilDiv]

theorem selfLink_page_formula_check :
    (derive bundleScenario1).currentPage = JNum.fin 2 ∧
    (derive bundleScenario1).totalPages = JNum.fin 5 ∧
    (derive bundleScenario1).currentStart = 21 ∧
    (derive bundleScenario1).currentEnd = 40 ∧
    (derive bundleScenario1).hasPrevious = true ∧
    (derive bundleScenario1).hasNext = true := by
  have h := selfLink_page_formula bundleScenario1 "http://h/obs?_offset=20&_count=20"
    20 20 97 (by decide) (by decide) (by decide) (by decide) (by decide) (by decide)
  refine ⟨?_, ?_, by decide, by decide, by decide, by decide⟩
  · rw [h.1]
  · rw [h.2]
    decide

/-- C2 (counterexample): with no entries but a self link whose offset is
`20`, the code returns `displayStart = 21` and `displayEnd = 20`, not the
claimed `1` and `0`. -/
theorem emptyEntries_offset_cex :
    entryCount bundleEmptyOffset = 0 ∧
    (derive bundleEmptyOffset).currentStart = 21 ∧
    (derive bundleEmptyOffset).currentEnd = 20 := by decide

/-- C2 (amended): for every bundle with no entries whose self link
yields no offset, or offset `0`, the derivation returns
`displayStart = 1` and `displayEnd = 0`. -/
theorem emptyEntries_display (b : Bundle) (hec : entryCount b = 0)
    (hoff : ∀ u, selfUrl b = some u → offsetOf u = none ∨ offsetOf u = some 0) :
    (derive b).currentStart = 1 ∧ (derive b).currentEnd = 0 := by
  rw [derive_currentStart, derive_currentEnd, hec]
  cases hu : selfUrl b with
  | none =>
    simp only [coreOf]
    split
    · exact ⟨rfl, rfl⟩
    · exact ⟨rfl, rfl⟩
  | some u =>
    rcases hoff u hu with h | h <;> simp [coreOf, h]

theorem emptyEntries_display_check :
    (derive bundleScenario3).currentStart = 1 ∧
    (derive bundleScenario3).currentEnd = 0 ∧
    (derive bundleScenario3).totalPages = JNum.fin 1 := by
  have hoff : ∀ u, selfUrl bundleScenario3 = some u →
      offsetOf u = none ∨ offsetOf u = some 0 := by
    intro u hu
    have hs : selfUrl bundleScenario3 = some "http://h/obs?_offset=0&_count=20" := by decide
    rw [hs] at hu
    injection hu with h2
    subst h2
    exact Or.inr (by decide)
  have h := emptyEntries_display bundleScenario3 (by decide) hoff
  exact ⟨h.1, h.2, by decide⟩

/-- C3 (counterexample): with `total = 0` (present but falsy), five
entries and no links, the no-self-link fallback is skipped and the page
size stays at the default `20` instead of the claimed entry count. -/
theorem totalZero_fallback_cex :
    bundleTotalZeroNoLink.total = some 0 ∧
    selfUrl bundleTotalZeroNoLink = none ∧
    0 < entryCount bundleTotalZeroNoLink ∧
    (derive bundleTotalZeroNoLink).pageSize = 20 ∧
    (derive bundleTotalZeroNoLink).pageSize ≠ entryCount bundleTotalZeroNoLink := by decide

/-- C3 (amended): for every bundle with no usable self link URL, a
present non-zero total `T` and a positive entry count, the derivation
infers `pageSize = entryCount`, `totalPages = ceil(T / entryCount)` and
`displayEnd = entryCount`. -/
theorem fallback_inference (b : Bundle) (t : Nat)
    (ht : b.total = some t) (htpos : 0 < t) (hu : selfUrl b = none)
    (hec : 0 < entryCount b) :
    (derive b).pageSize = entryCount b ∧
    (derive b).totalPages = JNum.fin (specCeilDiv t (entryCount b)) ∧
    (derive b).currentEnd = entryCount b := by
  have ht0 : t ≠ 0 := by omega
  have hec0 : entryCount b ≠ 0 := by omega
  rw [derive_pageSize, derive_totalPages, derive_currentEnd, hu, ht]
  have hcond : (totalTruthy (some t) && decide (0 < entryCount b)) = true := by
    simp [totalTruthy, ht0, hec]
  simp only [coreOf, hcond, if_true]
  refine ⟨trivial, ?_, trivial⟩
  simp [jCeilDiv, hec0, specCeilDiv]

theorem fallback_inference_check :
    (derive bundleScenario2).pageSize = 5 ∧
    (derive bundleScenario2).totalPages = JNum.fin 1 ∧
    (derive bundleScenario2).currentEnd = 5 ∧
    (derive bundleScenario2).hasNext = false ∧
    (derive bundleScenario2).hasPrevious = false := by
  have h := fallback_inference bundleScenario2 5 (by decide) (by decide) (by decide) (by decide)
  refine ⟨h.1, ?_, h.2.2, by decide, by decide⟩
  rw [h.2.1]
  decide

/-- C7 (counterexample): a self link URL with no query parameters does
leave `pageSize`, `offset` and `currentPage` at their defaults, but with
a present total the code still computes `totalPages = ceil(97/20) = 5`,
not the claimed default `1`. -/
theorem selfNoParams_totalPages_cex :
    offsetOf "http://h/obs" = none ∧ countOf "http://h/obs" = none ∧
    (derive bundleSelfNoParams).totalPages = JNum.fin 5 ∧
    JNum.fin 5 ≠ JNum.fin 1 := by decide

/-- C7 (amended): the derivation is a total function (this embedding has
no failure path), and for every bundle whose self link URL yields neither
an `_offset` nor a `_count` match, the missing parameters are treated as
absent: `pageSize = 20`, `offset = 0`, `currentPage = 1`, and
`totalPages = 1` when the total is also absent or zero. -/
theorem missingParams_defaults (b : Bundle) (u : String)
    (hu : selfUrl b = some u) (ho : offsetOf u = none) (hc : countOf u = none) :
    (derive b).pageSize = 20 ∧ (derive b).currentOffset = 0 ∧
    (derive b).currentPage = JNum.fin 1 ∧
    (totalTruthy b.total = false → (derive b).totalPages = JNum.fin 1) := by
  rw [derive_pageSize, derive_currentOffset, derive_currentPage, derive_totalPages, hu]
  simp only [coreOf, ho, hc]
  refine ⟨trivial, trivial, trivial, ?_⟩
  intro hfalse
  simp [hfalse]

theorem missingParams_defaults_check :
    (derive bundleSelfPlain).pageSize = 20 ∧
    (derive bundleSelfPlain).currentOffset = 0 ∧
    (derive bundleSelfPlain).currentPage = JNum.fin 1 ∧
    (derive bundleSelfPlain).totalPages = JNum.fin 1 := by
  have h := missingParams_defaults bundleSelfPlain "http://h/obs"
    (by decide) (by decide) (by decide)
  exact ⟨h.1, h.2.1, h.2.2.1, h.2.2.2 (by decide)⟩

theorem eatChars_self (key s : List Char) : eatChars key (key ++ s) = some s := by
  induction key with
  | nil => rfl
  | cons k ks ih => simp [eatChars, ih]

theorem numAfterKey_hit (key s : List Char) (c d : Char)
    (hc : c = '?' ∨ c = '&') (hd : d.isDigit = true) :
    ∃ n, numAfterKey key (c :: (key ++ d :: s)) = some n := by
  have hcb : (c = '?' || c = '&') = true := by
    rcases hc with h | h <;> simp [h]
  simp only [numAfterKey]
  rw [if_pos hcb, eatChars_self]
  refine ⟨digitsToNat (d :: s.takeWhile Char.isDigit), ?_⟩
  simp [List.takeWhile_cons, hd]

theorem scanParam_of_suffix (key pre rest : List Char) (n : Nat)
    (h : numAfterKey key rest = some n) :
    ∃ m, scanParam key (pre ++ rest) = some m := by
  induction pre with
  | nil =>
    cases rest with
    | nil => simp [numAfterKey] at h
    | cons a t =>
      refine ⟨n, ?_⟩
      simp only [List.nil_append, scanParam, h]
  | cons a pre2 ih =>
    simp only [List.cons_append, scanParam]
    cases hh : numAfterKey key (a :: (pre2 ++ rest)) with
    | some k => exact ⟨k, rfl⟩
    | none => exact ih

/-- C8 (counterexample): the regexes require an underscore — the claim's
pattern "an integer immediately following `?offset=` or `&offset=`"
(similarly for `count`) extracts nothing from URLs where exactly that
occurs, because the code matches `[?&]_offset=` / `[?&]_count=`. -/
theorem noUnderscore_extraction_cex :
    offsetOf "http://e/x?offset=7" = none ∧
    countOf "http://e/y&count=7" = none := by decide

/-- C8 (amended): the extraction scans the self link URL by pattern
match with the underscored parameter names: whenever an integer
immediately follows `?_offset=` or `&_offset=` anywhere in the URL, the
offset parameter is extracted, and similarly `?_count=` / `&_count=` for
the count parameter. -/
theorem paramExtraction_underscore (u : String) (s1 s2 : List Char) (c d : Char)
    (hc : c = '?' ∨ c = '&') (hd : d.isDigit = true) :
    (u.toList = s1 ++ c :: ("_offset=".toList ++ d :: s2) →
      ∃ n, offsetOf u = some n) ∧
    (u.toList = s1 ++ c :: ("_count=".toList ++ d :: s2) →
      ∃ n, countOf u = some n) := by
  constructor
  · intro hu
    unfold offsetOf
    rw [hu]
    obtain ⟨n, hn⟩ := numAfterKey_hit "_offset=".toList s2 c d hc hd
    exact scanParam_of_suffix "_offset=".toList s1 _ n hn
  · intro hu
    unfold countOf
    rw [hu]
    obtain ⟨n, hn⟩ := numAfterKey_hit "_count=".toList s2 c d hc hd
    exact scanParam_of_suffix "_count=".toList s1 _ n hn

theorem paramExtraction_underscore_check :
    (∃ n, offsetOf "a?_offset=5x" = some n) ∧
    (∃ n, countOf "b&_count=7" = some n) := by
  constructor
  · exact (paramExtraction_underscore "a?_offset=5x" ['a'] ['x'] '?' '5'
      (Or.inl rfl) (by decide)).1 (by decide)
  · exact (paramExtraction_underscore "b&_count=7" ['b'] [] '&' '7'
      (Or.inr rfl) (by decide)).2 (by decide)

/-- C9 (counterexample): a self link URL containing `_count=0` is
matched by the regex, and `pageSize` becomes `0`, not a value `≥ 1`. -/
theorem countZero_pageSize_cex :
    countOf "http://h/obs?_offset=0&_count=0" = some 0 ∧
    (derive bundleCountZero).pageSize = 0 := by decide

/-- C9 (amended): for every bundle whose self link does not yield
`_count=0`, the derived `displayStart`, `pageSize` and `currentPage` are
finite integers `≥ 1`, and `pageSize` defaults to `20` when the self
link URL yields no count match at all. -/
theorem view_lower_bounds (b : Bundle)
    (hcz : ∀ u, selfUrl b = some u → countOf u ≠ some 0) :
    (1 ≤ (derive b).currentStart ∧ 1 ≤ (derive b).pageSize ∧
      ∃ n, (derive b).currentPage = JNum.fin n ∧ 1 ≤ n) ∧
    (∀ u, selfUrl b = some u → countOf u = none → (derive b).pageSize = 20) := by
  constructor
  · rw [derive_currentStart, derive_pageSize, derive_currentPage]
    cases hu : selfUrl b with
    | none =>
      simp only [coreOf]
      split
      next hcond =>
        simp only [Bool.and_eq_true, decide_eq_true_eq] at hcond
        exact ⟨le_refl 1, hcond.2, 1, rfl, le_refl 1⟩
      next => exact ⟨le_refl 1, (by decide : (1 : Nat) ≤ 20), 1, rfl, le_refl 1⟩
    | some u =>
      cases hcnt : countOf u with
      | none =>
        cases hoff : offsetOf u with
        | none =>
          simp only [coreOf, hcnt, hoff]
          exact ⟨le_refl 1, (by decide : (1 : Nat) ≤ 20), 1, rfl, le_refl 1⟩
        | some o =>
          simp only [coreOf, hcnt, hoff]
          refine ⟨by omega, by omega, o / 20 + 1, ?_, by omega⟩
          simp [jFloorDivSucc]
      | some cv =>
        have hcv : cv ≠ 0 := fun h0 => hcz u hu (by rw [hcnt, h0])
        cases hoff : offsetOf u with
        | none =>
          simp only [coreOf, hcnt, hoff]
          exact ⟨le_refl 1, by omega, 1, rfl, le_refl 1⟩
        | some o =>
          simp only [coreOf, hcnt, hoff]
          refine ⟨by omega, by omega, o / cv + 1, ?_, Nat.le_add_left 1 (o / cv)⟩
          simp [jFloorDivSucc, hcv]
  · intro u hu hcn
    rw [derive_pageSize, hu]
    simp [coreOf, hcn]

theorem view_lower_bounds_check :
    (1 ≤ (derive bundleScenario1).currentStart ∧
      1 ≤ (derive bundleScenario1).pageSize ∧
      ∃ n, (derive bundleScenario1).currentPage = JNum.fin n ∧ 1 ≤ n) ∧
    (derive bundleSelfPlain).pageSize = 20 := by
  have hcz1 : ∀ u, selfUrl bundleScenario1 = some u → countOf u ≠ some 0 := by
    intro u hu
    have hs : selfUrl bundleScenario1 = some "http://h/obs?_offset=20&_count=20" := by
      decide
    rw [hs] at hu
    injection hu with h2
    subst h2
    decide
  have hcz2 : ∀ u, selfUrl bundleSelfPlain = some u → countOf u ≠ some 0 := by
    intro u hu
    have hs : selfUrl bundleSelfPlain = some "http://h/obs" := by decide
    rw [hs] at hu
    injection hu with h2
    subst h2
    decide
  refine ⟨(view_lower_bounds bundleScenario1 hcz1).1, ?_⟩
  exact (view_lower_bounds bundleSelfPlain hcz2).2 "http://h/obs" (by decide) (by decide)

end FhirPagination
